import Mathlib

/-!
Verification of the PrivateApp backend services against their specification.

The development shallowly embeds the three source files:
* `apps/finviz-market/backend/routes.py` (namespace `Finviz`),
* `apps/arxiv-kb/backend/routes.py` (namespace `ArxivKB`),
* `scripts/commons/openclaw_client.py` (namespace `OpenClaw`).

Pure Python functions become Lean functions; the SQLite tables, the summary
cache directory and the `_generating` dict become explicit state; the two
effectful calls (article fetch, LLM completion) are passed in as result
values; machine integers are `Nat` with explicit `% 2^32` / `% 2^64` where
overflow matters.  `hashlib.md5` is implemented in full (RFC 1321) in
namespace `MD5`.
-/

namespace MD5

/-- Modulus of a 32-bit word. -/
def M32 : Nat := 4294967296

/-- Bitwise complement on 32-bit words. -/
def not32 (x : Nat) : Nat := 4294967295 ^^^ x

/-- Left-rotation of a 32-bit word by `s` bits. -/
def rotl (x s : Nat) : Nat := ((x <<< s) ||| (x >>> (32 - s))) % M32

/-- Little-endian bytes of a 32-bit word. -/
def le4 (w : Nat) : List Nat :=
  [w % 256, (w >>> 8) % 256, (w >>> 16) % 256, (w >>> 24) % 256]

/-- Little-endian bytes of a 64-bit word. -/
def le8 (w : Nat) : List Nat :=
  [w % 256, (w >>> 8) % 256, (w >>> 16) % 256, (w >>> 24) % 256,
   (w >>> 32) % 256, (w >>> 40) % 256, (w >>> 48) % 256, (w >>> 56) % 256]

/-- MD5 padding: append 0x80, zero bytes up to 56 mod 64, then the original
bit length as a 64-bit little-endian quantity. -/
def padMessage (msg : List Nat) : List Nat :=
  let len := msg.length
  let z := (119 - len % 64) % 64
  msg ++ [0x80] ++ List.replicate z 0 ++ le8 ((len * 8) % 18446744073709551616)

/-- Splitting of a byte list into 64-byte chunks. -/
def toChunks (l : List Nat) : List (List Nat) :=
  if h : l = [] then []
  else
    have : (l.drop 64).length < l.length := by
      have hp : 0 < l.length := List.length_pos.mpr h
      simp only [List.length_drop]
      omega
    l.take 64 :: toChunks (l.drop 64)
termination_by l.length

/-- Per-round sine-derived constants (RFC 1321). -/
def K : List Nat :=
  [0xd76aa478, 0xe8c7b756, 0x242070db, 0xc1bdceee,
   0xf57c0faf, 0x4787c62a, 0xa8304613, 0xfd469501,
   0x698098d8, 0x8b44f7af, 0xffff5bb1, 0x895cd7be,
   0x6b901122, 0xfd987193, 0xa679438e, 0x49b40821,
   0xf61e2562, 0xc040b340, 0x265e5a51, 0xe9b6c7aa,
   0xd62f105d, 0x02441453, 0xd8a1e681, 0xe7d3fbc8,
   0x21e1cde6, 0xc33707d6, 0xf4d50d87, 0x455a14ed,
   0xa9e3e905, 0xfcefa3f8, 0x676f02d9, 0x8d2a4c8a,
   0xfffa3942, 0x8771f681, 0x6d9d6122, 0xfde5380c,
   0xa4beea44, 0x4bdecfa9, 0xf6bb4b60, 0xbebfbc70,
   0x289b7ec6, 0xeaa127fa, 0xd4ef3085, 0x04881d05,
   0xd9d4d039, 0xe6db99e5, 0x1fa27cf8, 0xc4ac5665,
   0xf4292244, 0x432aff97, 0xab9423a7, 0xfc93a039,
   0x655b59c3, 0x8f0ccc92, 0xffeff47d, 0x85845dd1,
   0x6fa87e4f, 0xfe2ce6e0, 0xa3014314, 0x4e0811a1,
   0xf7537e82, 0xbd3af235, 0x2ad7d2bb, 0xeb86d391]

/-- Per-round shift amounts (RFC 1321). -/
def S : List Nat :=
  [7, 12, 17, 22, 7, 12, 17, 22, 7, 12, 17, 22, 7, 12, 17, 22,
   5, 9, 14, 20, 5, 9, 14, 20, 5, 9, 14, 20, 5, 9, 14, 20,
   4, 11, 16, 23, 4, 11, 16, 23, 4, 11, 16, 23, 4, 11, 16, 23,
   6, 10, 15, 21, 6, 10, 15, 21, 6, 10, 15, 21, 6, 10, 15, 21]

/-- The four 32-bit state registers. -/
structure St where
  a : Nat
  b : Nat
  c : Nat
  d : Nat

/-- Word number `g` (32-bit little-endian) of a 64-byte chunk. -/
def wordAt (chunk : List Nat) (g : Nat) : Nat :=
  chunk.getD (4 * g) 0 + (chunk.getD (4 * g + 1) 0) <<< 8 +
  (chunk.getD (4 * g + 2) 0) <<< 16 + (chunk.getD (4 * g + 3) 0) <<< 24

/-- One MD5 round. -/
def step (chunk : List Nat) (st : St) (i : Nat) : St :=
  let f :=
    if i < 16 then (st.b &&& st.c) ||| (not32 st.b &&& st.d)
    else if i < 32 then (st.d &&& st.b) ||| (not32 st.d &&& st.c)
    else if i < 48 then st.b ^^^ st.c ^^^ st.d
    else st.c ^^^ (st.b ||| not32 st.d)
  let g :=
    if i < 16 then i
    else if i < 32 then (5 * i + 1) % 16
    else if i < 48 then (3 * i + 5) % 16
    else (7 * i) % 16
  let tmp := (f + st.a + K.getD i 0 + wordAt chunk g) % M32
  { a := st.d, d := st.c, c := st.b, b := (st.b + rotl tmp (S.getD i 0)) % M32 }

/-- Processing of one 64-byte chunk. -/
def processChunk (st : St) (chunk : List Nat) : St :=
  let r := (List.range 64).foldl (step chunk) st
  { a := (st.a + r.a) % M32, b := (st.b + r.b) % M32,
    c := (st.c + r.c) % M32, d := (st.d + r.d) % M32 }

/-- MD5 digest of a byte list, as its 16 bytes. -/
def md5Bytes (msg : List Nat) : List Nat :=
  let st := (toChunks (padMessage msg)).foldl processChunk
    ⟨0x67452301, 0xefcdab89, 0x98badcfe, 0x10325476⟩
  le4 st.a ++ le4 st.b ++ le4 st.c ++ le4 st.d

/-- Lower-case hexadecimal digit. -/
def hexChar (n : Nat) : Char :=
  if n < 10 then Char.ofNat (48 + n) else Char.ofNat (87 + n)

/-- Two hexadecimal characters of a byte. -/
def byteHex (b : Nat) : List Char := [hexChar (b / 16 % 16), hexChar (b % 16)]

/-- UTF-8 encoding of one character (models Python `str.encode()`). -/
def utf8Char (c : Char) : List Nat :=
  let n := c.toNat
  if n < 0x80 then [n]
  else if n < 0x800 then [0xC0 ||| (n >>> 6), 0x80 ||| (n &&& 0x3F)]
  else if n < 0x10000 then
    [0xE0 ||| (n >>> 12), 0x80 ||| ((n >>> 6) &&& 0x3F), 0x80 ||| (n &&& 0x3F)]
  else
    [0xF0 ||| (n >>> 18), 0x80 ||| ((n >>> 12) &&& 0x3F),
     0x80 ||| ((n >>> 6) &&& 0x3F), 0x80 ||| (n &&& 0x3F)]

/-- UTF-8 bytes of a string. -/
def strBytes (s : String) : List Nat := s.data.flatMap utf8Char

/-- Characters of `hashlib.md5(s.encode()).hexdigest()`. -/
def hexdigestChars (s : String) : List Char := (md5Bytes (strBytes s)).flatMap byteHex

/-- Result of `hashlib.md5(s.encode()).hexdigest()`. -/
def hexdigest (s : String) : String := ⟨hexdigestChars s⟩

end MD5

namespace Finviz

/-- Components of `datetime.now(timezone.utc)` that the routes read; `isoWeek`
models `now.isocalendar()[1]`. -/
structure UTCTime where
  year : Nat
  month : Nat
  day : Nat
  hour : Nat
  isoWeek : Nat
deriving DecidableEq

/-- Zero-padding to two digits, as in the `%m` / `%d` fields of `strftime`. -/
def pad2 (n : Nat) : String := if n < 10 then "0" ++ toString n else toString n

/-- Result of `now.strftime('%Y-%m-%d')`. -/
def dateStr (now : UTCTime) : String :=
  toString now.year ++ "-" ++ pad2 now.month ++ "-" ++ pad2 now.day

/-- Time bucket computed inside `_cache_key`. -/
def bucketOf (period : String) (now : UTCTime) : String :=
  if period = "weekly" then toString now.year ++ "-W" ++ toString now.isoWeek
  else if period = "24h" then dateStr now ++ "-" ++ toString (now.hour / 6)
  else dateStr now ++ "-" ++ toString (now.hour / 3)

/-- Function `_cache_key(period, language, topic)`: the first 12 hex characters of
the MD5 of `"period:language:topic:bucket"`. -/
def cacheKey (period language topic : String) (now : UTCTime) : String :=
  let raw := period ++ ":" ++ language ++ ":" ++ topic ++ ":" ++ bucketOf period now
  ⟨(MD5.hexdigestChars raw).take 12⟩

/-- Cache entry as written by `_save_cached_summary`; `generatedAt` keeps the raw
timestamp whose `isoformat()` the code stores. -/
structure CacheEntry where
  period : String
  language : String
  topic : String
  summary : String
  article_count : Nat
  generatedAt : UTCTime
deriving DecidableEq

/-- Mutable state of the service: the `_generating` dict and the summary cache
directory (a file per cache key; an unparsable file is modelled as absent). -/
structure ServerState where
  generating : String → Bool
  cache : String → Option CacheEntry

/-- Function `_save_cached_summary`. -/
def saveCachedSummary (period language summary : String) (articleCount : Nat)
    (topic : String) (now : UTCTime) (st : ServerState) : ServerState :=
  let key := cacheKey period language topic now
  { st with cache := fun k =>
      if k = key then some ⟨period, language, topic, summary, articleCount, now⟩
      else st.cache k }

/-- Function `_get_cached_summary`. -/
def getCachedSummary (period language topic : String) (now : UTCTime)
    (st : ServerState) : Option CacheEntry :=
  st.cache (cacheKey period language topic now)

/-- Function `_period_to_hours`. -/
def periodToHours (period : String) : Nat :=
  if period = "12h" then 12
  else if period = "24h" then 24
  else if period = "weekly" then 168
  else 24

/-- An article record as produced by `_get_articles_for_period` (row joined with
the truncated content file). -/
structure FetchedArticle where
  title : String
  url : String
  date : String
  content : Option String
deriving DecidableEq

/-- Guard key `f"{period}:{language}:{topic}"` used by `finviz_summary` and
`_do_generate`. -/
def genKey (period language topic : String) : String :=
  period ++ ":" ++ language ++ ":" ++ topic

/-- Message cached when no articles match the period. -/
def noArticlesMsg (topic : String) : String :=
  "No articles found for " ++ topic ++
  " in this period. The crawler may not have ingested articles for this ticker yet — try again after the next crawl cycle."

/-- Function `_do_generate`.  The two effectful calls are passed as results:
`fetch` models `_get_articles_for_period` (`error e` = the call raised, with the
exception rendering `f"{e}"` equal to `e`), and `llm` models
`_generate_summary_llm`.  The final cache write is local file output and is
modelled as always succeeding. -/
def doGenerate (period language topic : String) (now : UTCTime)
    (fetch : Except String (List FetchedArticle))
    (llm : List FetchedArticle → Except String String)
    (st : ServerState) : ServerState :=
  let key := genKey period language topic
  let st1 :=
    match fetch with
    | .error e => saveCachedSummary period language ("Error: " ++ e) 0 topic now st
    | .ok articles =>
      if articles.isEmpty then
        saveCachedSummary period language (noArticlesMsg topic) 0 topic now st
      else
        match llm articles with
        | .error e => saveCachedSummary period language ("Error: " ++ e) 0 topic now st
        | .ok summary =>
          saveCachedSummary period language summary articles.length topic now st
  { st1 with generating := fun k => if k = key then false else st1.generating k }

/-- Response body of `GET /summary/{period}`. -/
inductive SummaryResponse where
  | ready (entry : CacheEntry) (generatingFlag : Bool)
  | generating (period language topic : String)
deriving DecidableEq

/-- Status field of a summary response. -/
def SummaryResponse.status : SummaryResponse → String
  | .ready _ _ => "ready"
  | .generating _ _ _ => "generating"

/-- Outcome of one `finviz_summary` request: the response, the state afterwards,
and whether a background generation thread was started. -/
structure SummaryOutcome where
  response : SummaryResponse
  state : ServerState
  threadStarted : Bool

/-- Endpoint `GET /summary/{period}` (`finviz_summary`).  `language` is the value
of `_get_preferences()["language"]`; the body of a started thread is
`doGenerate`, recorded here only as `threadStarted`. -/
def finvizSummary (period : String) (regenerate : Nat) (topic language : String)
    (now : UTCTime) (st : ServerState) : Except (Nat × String) SummaryOutcome :=
  if period ∉ (["12h", "24h", "weekly"] : List String) then
    .error (400, "Period must be 12h, 24h, or weekly")
  else
    let key := genKey period language topic
    let st1 : ServerState :=
      if regenerate ≠ 0 then
        let ck := cacheKey period language topic now
        { st with cache := fun k => if k = ck then none else st.cache k }
      else st
    let generate : Except (Nat × String) SummaryOutcome :=
      if st1.generating key then
        .ok ⟨.generating period language topic, st1, false⟩
      else
        .ok ⟨.generating period language topic,
             { st1 with generating := fun k => if k = key then true else st1.generating k },
             true⟩
    match getCachedSummary period language topic now st1 with
    | some c =>
      if regenerate = 0 then .ok ⟨.ready c (st1.generating key), st1, false⟩
      else generate
    | none => generate

/-- Row of the finviz `articles` table. -/
structure ArticleRow where
  title : String
  url : String
  publish_at : String
  article_path : Option String
  ticker : Option String
  status : String
deriving DecidableEq

/-- One returned headline. -/
structure Headline where
  title : String
  url : String
  date : String
  has_content : Bool
deriving DecidableEq

/-- Response body of `GET /headlines`. -/
structure HeadlinesResponse where
  count : Nat
  headlines : List Headline
deriving DecidableEq

/-- Endpoint `GET /headlines` (`finviz_headlines`): rows with
`publish_at >= cutoff` (SQLite compares the ISO-8601 TEXT column byte-wise,
i.e. lexicographically), ordered by `publish_at` descending, limited.
`cutoff` models `(datetime.now(timezone.utc) - timedelta(hours=hours)).isoformat()`. -/
def finvizHeadlines (table : List ArticleRow) (cutoff : String) (limit : Nat) :
    HeadlinesResponse :=
  let rows := ((table.filter (fun r => decide (cutoff ≤ r.publish_at))).mergeSort
      (fun a b => decide (b.publish_at ≤ a.publish_at))).take limit
  { count := rows.length,
    headlines := rows.map (fun r => ⟨r.title, r.url, r.publish_at, r.article_path.isSome⟩) }

/-- Result of `os.path.join(a, b)` for one join step. -/
def pathJoin (a b : String) : String :=
  if b.data.head? = some '/' then b
  else if a = "" ∨ a.data.getLast? = some '/' then a ++ b
  else a ++ "/" ++ b

/-- Response body of `GET /article`. -/
structure ArticleResponse where
  title : String
  url : String
  date : String
  content : Option String
deriving DecidableEq

/-- Endpoint `GET /article?url=` (`finviz_article`).  `fs` models
`os.path.exists` and `readFile` models `Path.read_text(errors="replace")`. -/
def finvizArticle (table : List ArticleRow) (articlesDir : String)
    (fs : String → Bool) (readFile : String → String) (url : String) :
    Except (Nat × String) ArticleResponse :=
  match table.find? (fun r => r.url == url) with
  | none => .error (404, "Article not found")
  | some row =>
    let content :=
      match row.article_path with
      | none => none
      | some p =>
        if p = "" then none
        else
          let fp := pathJoin articlesDir p
          if fs fp then some (readFile fp) else none
    .ok ⟨row.title, row.url, row.publish_at, content⟩

/-- A batch-add item of `POST /tickers`. -/
structure TickerIn where
  symbol : String
  keywords : Option (List String)
deriving DecidableEq

/-- Whitespace for Python `str.strip()` (ASCII whitespace characters). -/
def pyIsSpace (c : Char) : Bool :=
  c = ' ' ∨ c = '\t' ∨ c = '\n' ∨ c = '\r' ∨ c = '\x0b' ∨ c = '\x0c'

/-- Python `s.strip()`: leading and trailing whitespace removed. -/
def pyStrip (s : String) : String :=
  ⟨((s.data.dropWhile pyIsSpace).reverse.dropWhile pyIsSpace).reverse⟩

/-- Python `s.upper()` (character-wise upper-casing; the symbols handled here
are ASCII). -/
def pyUpper (s : String) : String := ⟨s.data.map Char.toUpper⟩

/-- Splitting on a comma, as Python `s.split(",")`. -/
def splitCommaAux : List Char → List Char → List String
  | [], acc => [⟨acc.reverse⟩]
  | c :: rest, acc =>
    if c = ',' then ⟨acc.reverse⟩ :: splitCommaAux rest []
    else splitCommaAux rest (c :: acc)

/-- Python `s.split(",")`. -/
def pySplitComma (s : String) : List String := splitCommaAux s.data []

/-- Python `s.strip().upper()` as applied to ticker symbols. -/
def normSym (s : String) : String := pyUpper (pyStrip s)

/-- Response body of `POST /tickers`. -/
structure AddResponse where
  ok : Bool
  added : List String
deriving DecidableEq

/-- One iteration of the `add_tickers` loop. -/
def addStep (acc : (String → Bool) × List String) (t : TickerIn) :
    (String → Bool) × List String :=
  let sym := normSym t.symbol
  if sym = "" ∨ sym = "MARKET" then acc
  else ((fun k => if k = sym then true else acc.1 k), acc.2 ++ [sym])

/-- Endpoint `POST /tickers` (`add_tickers`); the tickers table is modelled by
symbol presence. -/
def addTickers (tickers : List TickerIn) (db : String → Bool) :
    Except (Nat × String) ((String → Bool) × AddResponse) :=
  if tickers.isEmpty then .error (400, "No tickers provided")
  else
    let r := tickers.foldl addStep (db, [])
    .ok (r.1, ⟨true, r.2⟩)

/-- Response body of `DELETE /tickers`. -/
structure RemoveResponse where
  ok : Bool
  removed : List String
deriving DecidableEq

/-- Endpoint `DELETE /tickers?symbols=` (`remove_tickers`). -/
def removeTickers (symbols : String) (db : String → Bool) :
    (String → Bool) × RemoveResponse :=
  let syms := ((pySplitComma symbols).filter (fun s => pyStrip s ≠ "")).map normSym
  let db2 := syms.foldl (fun d sym => fun k => if k = sym then false else d k) db
  (db2, ⟨true, syms⟩)

end Finviz

namespace ArxivKB

/-- Row of the `papers` table (`id` is the integer primary key). -/
structure PaperRow where
  id : Nat
  arxiv_id : String
  title : String
  abstract : String
  published : String
deriving DecidableEq

/-- Row of the `translations` table. -/
structure TranslationRow where
  paper_id : Nat
  language : String
  abstract : String
deriving DecidableEq

/-- The arxiv-kb database. -/
structure KBState where
  papers : List PaperRow
  translations : List TranslationRow
deriving DecidableEq

/-- Function `_pdf_path`: `os.path.join(data_dir, "pdfs", f"{arxiv_id}.pdf")`. -/
def pdfPath (dataDir arxivId : String) : String :=
  Finviz.pathJoin (Finviz.pathJoin dataDir "pdfs") (arxivId ++ ".pdf")

/-- Response body of `GET /paper/{arxiv_id}/translate`. -/
structure TranslateResponse where
  translated : Option String
  language : Option String
deriving DecidableEq

/-- Outcome of one translate request: response, database afterwards, and whether
`_translate` (the LLM call) was invoked. -/
structure TranslateOutcome where
  response : TranslateResponse
  db : KBState
  llmCalled : Bool
deriving DecidableEq

/-- Endpoint `GET /paper/{arxiv_id}/translate` (`science_paper_translate`).
`targetLang` models `_get_translate_language()`; `llm` models the value of
`_translate(...)` (`none` = the call failed).  The insert is wrapped in
`try/except pass` in the source; it is modelled as succeeding. -/
def sciencePaperTranslate (db : KBState) (arxivId targetLang : String)
    (llm : Option String) : TranslateOutcome :=
  match db.papers.find? (fun r => r.arxiv_id == arxivId) with
  | none => ⟨⟨none, none⟩, db, false⟩
  | some row =>
    if row.abstract = "" then ⟨⟨none, none⟩, db, false⟩
    else if targetLang = "" then ⟨⟨none, none⟩, db, false⟩
    else
      match db.translations.find?
          (fun t => t.paper_id == row.id && t.language == targetLang) with
      | some tr => ⟨⟨some tr.abstract, some targetLang⟩, db, false⟩
      | none =>
        match llm with
        | some tr =>
          ⟨⟨some tr, some targetLang⟩,
           { db with translations := db.translations ++ [⟨row.id, targetLang, tr⟩] },
           true⟩
        | none => ⟨⟨none, some targetLang⟩, db, true⟩

/-- Response body of `GET /paper/{arxiv_id}`. -/
structure PaperResponse where
  arxiv_id : String
  title : String
  abstract : String
  abstract_translated : Option String
  translate_language : Option String
  published : String
  has_pdf : Bool
deriving DecidableEq

/-- Endpoint `GET /paper/{arxiv_id}` (`science_paper`). -/
def sciencePaper (db : KBState) (dataDir : String) (fs : String → Bool)
    (arxivId targetLang : String) : Except (Nat × String) PaperResponse :=
  match db.papers.find? (fun r => r.arxiv_id == arxivId) with
  | none => .error (404, "Paper not found")
  | some row =>
    let hasPdf := fs (pdfPath dataDir row.arxiv_id)
    let tr :=
      if targetLang ≠ "" ∧ row.abstract ≠ "" then
        match db.translations.find?
            (fun t => t.paper_id == row.id && t.language == targetLang) with
        | some t => some t.abstract
        | none => none
      else none
    .ok ⟨row.arxiv_id, row.title, row.abstract, tr,
         if targetLang = "" then none else some targetLang, row.published, hasPdf⟩

/-- A served file, as produced by `FileResponse`. -/
structure FileResp where
  path : String
  media_type : String
  filename : String
deriving DecidableEq

/-- Endpoint `GET /pdf/{arxiv_id}` (`science_pdf`). -/
def sciencePdf (dataDir : String) (fs : String → Bool) (arxivId : String) :
    Except (Nat × String) FileResp :=
  let pdfFile := pdfPath dataDir arxivId
  if fs pdfFile = false then .error (404, "PDF not found")
  else .ok ⟨pdfFile, "application/pdf", arxivId ++ ".pdf"⟩

end ArxivKB

namespace OpenClaw

/-- The `gateway` section of `openclaw.json`, with its optional fields. -/
structure GatewayCfg where
  host : Option String
  port : Option Nat
deriving DecidableEq

/-- Parsed `openclaw.json`, restricted to what `get_gateway_url` reads. -/
structure OCConfig where
  gateway : Option GatewayCfg
deriving DecidableEq

/-- Python `url.rstrip("/")`. -/
def rstripSlash (s : String) : String :=
  ⟨(s.data.reverse.dropWhile (fun c => c = '/')).reverse⟩

/-- Gateway URL built from a parsed config:
`f"http://{host}:{port}"` with `host = cfg.get("gateway", {}).get("host", "127.0.0.1")`
and `port = cfg.get("gateway", {}).get("port", 18789)`. -/
def urlOfConfig (cfg : OCConfig) : String :=
  let port := match cfg.gateway with | some g => g.port.getD 18789 | none => 18789
  let host := match cfg.gateway with | some g => g.host.getD "127.0.0.1" | none => "127.0.0.1"
  "http://" ++ host ++ ":" ++ toString port

/-- Steps 2 and 3 of `get_gateway_url`: the config file (`none` = absent,
`some none` = present but raising on read/parse, `some (some cfg)` = parsed). -/
def fromConfig : Option (Option OCConfig) → String
  | some (some cfg) => urlOfConfig cfg
  | some none => "http://localhost:18789"
  | none => "http://localhost:18789"

/-- Function `get_gateway_url`; `env` models
`os.environ.get("OPENCLAW_GATEWAY_URL")`. -/
def getGatewayUrl (env : Option String) (configFile : Option (Option OCConfig)) : String :=
  match env with
  | some url => if url = "" then fromConfig configFile else rstripSlash url
  | none => fromConfig configFile

end OpenClaw

/-- Symbol accepted by the `add_tickers` loop: the normalised symbol, skipping
empty results and the literal MARKET. -/
def Finviz.acceptSym (t : Finviz.TickerIn) : Option String :=
  let sym := Finviz.normSym t.symbol
  if sym = "" ∨ sym = "MARKET" then none else some sym

/-! Helper lemmas. -/

theorem MD5.length_md5Bytes (msg : List Nat) : (md5Bytes msg).length = 16 := by
  simp [md5Bytes, le4]

theorem MD5.length_flatMap_byteHex (l : List Nat) :
    (l.flatMap byteHex).length = 2 * l.length := by
  induction l with
  | nil => simp
  | cons b t ih => simp only [List.flatMap_cons, List.length_append, ih, byteHex,
      List.length_cons, List.length_nil]; omega

theorem MD5.length_hexdigestChars (s : String) : (hexdigestChars s).length = 32 := by
  rw [hexdigestChars, length_flatMap_byteHex, length_md5Bytes]

theorem Finviz.length_cacheKey (p l t : String) (now : UTCTime) :
    (cacheKey p l t now).length = 12 := by
  show ((MD5.hexdigestChars _).take 12).length = 12
  rw [List.length_take, MD5.length_hexdigestChars]
  decide

/-- C2: the summary cache key is periodic: `_cache_key` depends on the current
time only through the bucket (weekly: year and ISO week; 24h: date and
`hour // 6`; otherwise date and `hour // 3`); two calls with equal arguments in
the same bucket give the same 12-character key, and `_get_cached_summary` hence
returns the same cached summary for the whole bucket. -/
theorem C2_cache_key_periodic (p l t : String) (n1 n2 : Finviz.UTCTime)
    (hb : Finviz.bucketOf p n1 = Finviz.bucketOf p n2) :
    Finviz.cacheKey p l t n1 = Finviz.cacheKey p l t n2 ∧
    (Finviz.cacheKey p l t n1).length = 12 ∧
    (∀ st : Finviz.ServerState,
      Finviz.getCachedSummary p l t n1 st = Finviz.getCachedSummary p l t n2 st) ∧
    Finviz.bucketOf "weekly" n1 = toString n1.year ++ "-W" ++ toString n1.isoWeek ∧
    Finviz.bucketOf "24h" n1 = Finviz.dateStr n1 ++ "-" ++ toString (n1.hour / 6) ∧
    (p ≠ "weekly" → p ≠ "24h" →
      Finviz.bucketOf p n1 = Finviz.dateStr n1 ++ "-" ++ toString (n1.hour / 3)) := by
  have hkey : Finviz.cacheKey p l t n1 = Finviz.cacheKey p l t n2 := by
    unfold Finviz.cacheKey
    rw [hb]
  refine ⟨hkey, Finviz.length_cacheKey p l t n1,
    fun st => by unfold Finviz.getCachedSummary; rw [hkey], ?_, ?_, ?_⟩
  · simp [Finviz.bucketOf]
  · simp [Finviz.bucketOf]
  · intro h1 h2
    simp [Finviz.bucketOf, h1, h2]

/-- Witness for C2 at two concrete times in the same 3-hour bucket. -/
theorem C2_cache_key_periodic_witness :
    Finviz.bucketOf "12h" ⟨2025, 1, 2, 3, 1⟩ = Finviz.bucketOf "12h" ⟨2025, 1, 2, 4, 1⟩ ∧
    Finviz.cacheKey "12h" "English" "Market" ⟨2025, 1, 2, 3, 1⟩ =
      Finviz.cacheKey "12h" "English" "Market" ⟨2025, 1, 2, 4, 1⟩ ∧
    (Finviz.cacheKey "12h" "English" "Market" ⟨2025, 1, 2, 3, 1⟩).length = 12 := by
  have hb : Finviz.bucketOf "12h" ⟨2025, 1, 2, 3, 1⟩ =
      Finviz.bucketOf "12h" ⟨2025, 1, 2, 4, 1⟩ := by decide
  exact ⟨hb, (C2_cache_key_periodic "12h" "English" "Market" _ _ hb).1,
    (C2_cache_key_periodic "12h" "English" "Market" _ _ hb).2.1⟩

theorem Finviz.finvizSummary_isOk (period : String) (regenerate : Nat)
    (topic language : String) (now : UTCTime) (st : ServerState)
    (hmem : period ∈ (["12h", "24h", "weekly"] : List String)) :
    ∃ o, finvizSummary period regenerate topic language now st = .ok o := by
  unfold finvizSummary
  rw [if_neg (by simp [hmem])]
  dsimp only
  repeat' split
  all_goals exact ⟨_, rfl⟩

/-- C8: `GET /summary/{period}` raises HTTP 400 exactly when the period is not
one of 12h, 24h, weekly, and `_period_to_hours` maps the accepted periods to
the lookback windows 12, 24 and 168 hours. -/
theorem C8_period_validation (period : String) (regenerate : Nat)
    (topic language : String) (now : Finviz.UTCTime) (st : Finviz.ServerState) :
    (Finviz.finvizSummary period regenerate topic language now st =
        .error (400, "Period must be 12h, 24h, or weekly") ↔
      period ∉ (["12h", "24h", "weekly"] : List String)) ∧
    Finviz.periodToHours "12h" = 12 ∧ Finviz.periodToHours "24h" = 24 ∧
    Finviz.periodToHours "weekly" = 168 := by
  refine ⟨⟨?_, ?_⟩, by decide, by decide, by decide⟩
  · intro h hmem
    obtain ⟨o, ho⟩ :=
      Finviz.finvizSummary_isOk period regenerate topic language now st hmem
    rw [ho] at h
    exact Except.noConfusion h
  · intro hmem
    unfold Finviz.finvizSummary
    rw [if_pos hmem]

/-- Witness for C8 at the rejected period "daily" and the accepted periods. -/
theorem C8_period_validation_witness :
    Finviz.finvizSummary "daily" 0 "Market" "English" ⟨2025, 1, 2, 3, 1⟩
        ⟨fun _ => false, fun _ => none⟩ =
      .error (400, "Period must be 12h, 24h, or weekly") ∧
    Finviz.periodToHours "12h" = 12 ∧ Finviz.periodToHours "24h" = 24 ∧
    Finviz.periodToHours "weekly" = 168 := by
  refine ⟨?_, ?_, ?_, ?_⟩
  · exact (C8_period_validation "daily" 0 "Market" "English" ⟨2025, 1, 2, 3, 1⟩
      ⟨fun _ => false, fun _ => none⟩).1.mpr (by decide)
  · exact (C8_period_validation "daily" 0 "Market" "English" ⟨2025, 1, 2, 3, 1⟩
      ⟨fun _ => false, fun _ => none⟩).2.1
  · exact (C8_period_validation "daily" 0 "Market" "English" ⟨2025, 1, 2, 3, 1⟩
      ⟨fun _ => false, fun _ => none⟩).2.2.1
  · exact (C8_period_validation "daily" 0 "Market" "English" ⟨2025, 1, 2, 3, 1⟩
      ⟨fun _ => false, fun _ => none⟩).2.2.2

theorem OpenClaw.head?_dropWhile_false (p : Char → Bool) :
    ∀ (l : List Char) (a : Char), (l.dropWhile p).head? = some a → p a = false := by
  intro l
  induction l with
  | nil => intro a h; simp [List.dropWhile] at h
  | cons c t ih =>
    intro a h
    rw [List.dropWhile_cons] at h
    by_cases hc : p c
    · rw [if_pos hc] at h
      exact ih a h
    · rw [if_neg hc] at h
      simp only [List.head?_cons, Option.some.injEq] at h
      subst h
      simpa using hc

theorem OpenClaw.rstripSlash_spec (s : String) :
    (∃ k, s = rstripSlash s ++ String.mk (List.replicate k '/')) ∧
    (∀ a, (rstripSlash s).data.getLast? = some a → a ≠ '/') := by
  constructor
  · refine ⟨(s.data.reverse.takeWhile (fun c => c = '/')).length, ?_⟩
    apply String.ext
    show s.data = (s.data.reverse.dropWhile (fun c => c = '/')).reverse ++
      List.replicate (s.data.reverse.takeWhile (fun c => c = '/')).length '/'
    have h1 := List.takeWhile_append_dropWhile (fun c => decide (c = '/')) s.data.reverse
    have h2 : (s.data.reverse.takeWhile (fun c => decide (c = '/'))).reverse =
        List.replicate (s.data.reverse.takeWhile (fun c => c = '/')).length '/' := by
      have hmem : ∀ b ∈ (s.data.reverse.takeWhile (fun c => decide (c = '/'))).reverse,
          b = '/' := by
        intro b hb
        have := List.mem_takeWhile_imp (List.mem_reverse.mp hb)
        exact of_decide_eq_true this
      rw [List.eq_replicate_of_mem hmem, List.length_reverse]
    calc s.data = s.data.reverse.reverse := (List.reverse_reverse _).symm
      _ = (s.data.reverse.takeWhile (fun c => decide (c = '/')) ++
            s.data.reverse.dropWhile (fun c => decide (c = '/'))).reverse := by rw [h1]
      _ = (s.data.reverse.dropWhile (fun c => c = '/')).reverse ++
            List.replicate (s.data.reverse.takeWhile (fun c => c = '/')).length '/' := by
            rw [List.reverse_append, h2]
  · intro a h
    have h2 : (s.data.reverse.dropWhile (fun c => decide (c = '/'))).head? = some a := by
      rw [← List.getLast?_reverse]
      simpa [rstripSlash] using h
    have := OpenClaw.head?_dropWhile_false _ _ _ h2
    simpa using this

/-- C7: `get_gateway_url` returns the `OPENCLAW_GATEWAY_URL` environment variable
with trailing slashes stripped whenever it is set and non-empty; otherwise, when
the config file exists and parses, it returns `http://{host}:{port}` from the
gateway section with host defaulting to 127.0.0.1 and port to 18789; otherwise
it returns `http://localhost:18789`. -/
theorem C7_gateway_url (u : String) (cfgFile : Option (Option OpenClaw.OCConfig))
    (cfg : OpenClaw.OCConfig) (hu : u ≠ "") :
    OpenClaw.getGatewayUrl (some u) cfgFile = OpenClaw.rstripSlash u ∧
    (∃ k, u = OpenClaw.rstripSlash u ++ String.mk (List.replicate k '/')) ∧
    (∀ a, (OpenClaw.rstripSlash u).data.getLast? = some a → a ≠ '/') ∧
    OpenClaw.getGatewayUrl (some "") cfgFile = OpenClaw.fromConfig cfgFile ∧
    OpenClaw.getGatewayUrl none cfgFile = OpenClaw.fromConfig cfgFile ∧
    (cfg.gateway = none →
      OpenClaw.getGatewayUrl none (some (some cfg)) = "http://127.0.0.1:18789") ∧
    (∀ g, cfg.gateway = some g →
      OpenClaw.getGatewayUrl none (some (some cfg)) =
        "http://" ++ g.host.getD "127.0.0.1" ++ ":" ++ toString (g.port.getD 18789)) ∧
    OpenClaw.getGatewayUrl none (some none) = "http://localhost:18789" ∧
    OpenClaw.getGatewayUrl none none = "http://localhost:18789" := by
  refine ⟨by simp [OpenClaw.getGatewayUrl, hu], (OpenClaw.rstripSlash_spec u).1,
    (OpenClaw.rstripSlash_spec u).2, rfl, rfl, ?_, ?_, rfl, rfl⟩
  · intro hg
    simp only [OpenClaw.getGatewayUrl, OpenClaw.fromConfig, OpenClaw.urlOfConfig, hg]
    rfl
  · intro g hg
    simp [OpenClaw.getGatewayUrl, OpenClaw.fromConfig, OpenClaw.urlOfConfig, hg]

/-- Witness for C7 at a concrete env value with trailing slashes and a concrete
parsed config. -/
theorem C7_gateway_url_witness :
    OpenClaw.getGatewayUrl (some "http://gw:1//") (some (some ⟨some ⟨some "h", some 9⟩⟩)) =
      OpenClaw.rstripSlash "http://gw:1//" ∧
    OpenClaw.getGatewayUrl none (some (some ⟨some ⟨some "h", some 9⟩⟩)) =
      "http://" ++ (some "h").getD "127.0.0.1" ++ ":" ++ toString ((some 9).getD 18789) := by
  have h := C7_gateway_url "http://gw:1//" (some (some ⟨some ⟨some "h", some 9⟩⟩))
    ⟨some ⟨some "h", some 9⟩⟩ (by decide)
  exact ⟨h.1, h.2.2.2.2.2.2.1 _ rfl⟩

/-- C3: summary generation always caches a result and always releases the guard:
`_do_generate` writes a cache entry in every case (the LLM summary with the
fetched article count on success, the no-articles message with count 0 when no
articles match, an error message with count 0 when the fetch or the LLM call
raises) and in every case removes the guard key from `_generating`. -/
theorem C3_do_generate_total (p l t : String) (now : Finviz.UTCTime)
    (fetch : Except String (List Finviz.FetchedArticle))
    (llm : List Finviz.FetchedArticle → Except String String)
    (st : Finviz.ServerState) :
    (Finviz.doGenerate p l t now fetch llm st).generating (Finviz.genKey p l t) = false ∧
    ((Finviz.doGenerate p l t now fetch llm st).cache (Finviz.cacheKey p l t now)).isSome = true ∧
    (∀ e, fetch = .error e →
      (Finviz.doGenerate p l t now fetch llm st).cache (Finviz.cacheKey p l t now) =
        some ⟨p, l, t, "Error: " ++ e, 0, now⟩) ∧
    (fetch = .ok [] →
      (Finviz.doGenerate p l t now fetch llm st).cache (Finviz.cacheKey p l t now) =
        some ⟨p, l, t, Finviz.noArticlesMsg t, 0, now⟩) ∧
    (∀ arts s, fetch = .ok arts → arts ≠ [] → llm arts = .ok s →
      (Finviz.doGenerate p l t now fetch llm st).cache (Finviz.cacheKey p l t now) =
        some ⟨p, l, t, s, arts.length, now⟩) ∧
    (∀ arts e, fetch = .ok arts → arts ≠ [] → llm arts = .error e →
      (Finviz.doGenerate p l t now fetch llm st).cache (Finviz.cacheKey p l t now) =
        some ⟨p, l, t, "Error: " ++ e, 0, now⟩) := by
  have hsave : ∀ sum cnt, (Finviz.saveCachedSummary p l sum cnt t now st).cache
      (Finviz.cacheKey p l t now) = some ⟨p, l, t, sum, cnt, now⟩ := by
    intro sum cnt
    simp [Finviz.saveCachedSummary]
  refine ⟨by simp [Finviz.doGenerate], ?_, ?_, ?_, ?_, ?_⟩
  · cases fetch with
    | error e => simp [Finviz.doGenerate, hsave]
    | ok arts =>
      cases arts with
      | nil => simp [Finviz.doGenerate, hsave]
      | cons a as =>
        cases hl : llm (a :: as) with
        | error e => simp [Finviz.doGenerate, hl, hsave]
        | ok s => simp [Finviz.doGenerate, hl, hsave]
  · intro e he
    subst he
    simpa [Finviz.doGenerate] using hsave ("Error: " ++ e) 0
  · intro he
    subst he
    simpa [Finviz.doGenerate] using hsave (Finviz.noArticlesMsg t) 0
  · intro arts s hf hne hl
    subst hf
    cases arts with
    | nil => exact absurd rfl hne
    | cons a as => simpa [Finviz.doGenerate, hl] using hsave s (a :: as).length
  · intro arts e hf hne hl
    subst hf
    cases arts with
    | nil => exact absurd rfl hne
    | cons a as => simpa [Finviz.doGenerate, hl] using hsave ("Error: " ++ e) 0

/-- Witness for C3 at a concrete failing fetch. -/
theorem C3_do_generate_total_witness :
    (Finviz.doGenerate "12h" "English" "Market" ⟨2025, 1, 2, 3, 1⟩ (.error "boom")
        (fun _ => .ok "sum") ⟨fun k => k == "12h:English:Market", fun _ => none⟩).generating
      (Finviz.genKey "12h" "English" "Market") = false ∧
    (Finviz.doGenerate "12h" "English" "Market" ⟨2025, 1, 2, 3, 1⟩ (.error "boom")
        (fun _ => .ok "sum") ⟨fun k => k == "12h:English:Market", fun _ => none⟩).cache
      (Finviz.cacheKey "12h" "English" "Market" ⟨2025, 1, 2, 3, 1⟩) =
      some ⟨"12h", "English", "Market", "Error: " ++ "boom", 0, ⟨2025, 1, 2, 3, 1⟩⟩ :=
  ⟨(C3_do_generate_total "12h" "English" "Market" ⟨2025, 1, 2, 3, 1⟩ (.error "boom")
      (fun _ => .ok "sum") ⟨fun k => k == "12h:English:Market", fun _ => none⟩).1,
   (C3_do_generate_total "12h" "English" "Market" ⟨2025, 1, 2, 3, 1⟩ (.error "boom")
      (fun _ => .ok "sum") ⟨fun k => k == "12h:English:Market", fun _ => none⟩).2.2.1
     "boom" rfl⟩

/-- C1 counterexample: with the guard key `"12h:English:Market"` marked in
`_generating` and a cached summary present for the current bucket (the state
holding between the cache write and the guard release in `_do_generate`, a
window the route itself anticipates by reporting `generating: key in
_generating` inside the ready response), a valid request returns status
"ready", not "generating". -/
theorem C1_guard_counterexample :
    (Finviz.ServerState.mk (fun k => k == "12h:English:Market")
        (fun k => if k = Finviz.cacheKey "12h" "English" "Market" ⟨2025, 1, 2, 3, 1⟩
          then some ⟨"12h", "English", "Market", "cached", 5, ⟨2025, 1, 2, 3, 1⟩⟩
          else none)).generating (Finviz.genKey "12h" "English" "Market") = true ∧
    Finviz.finvizSummary "12h" 0 "Market" "English" ⟨2025, 1, 2, 3, 1⟩
      (Finviz.ServerState.mk (fun k => k == "12h:English:Market")
        (fun k => if k = Finviz.cacheKey "12h" "English" "Market" ⟨2025, 1, 2, 3, 1⟩
          then some ⟨"12h", "English", "Market", "cached", 5, ⟨2025, 1, 2, 3, 1⟩⟩
          else none)) =
      .ok ⟨.ready ⟨"12h", "English", "Market", "cached", 5, ⟨2025, 1, 2, 3, 1⟩⟩ true,
           Finviz.ServerState.mk (fun k => k == "12h:English:Market")
             (fun k => if k = Finviz.cacheKey "12h" "English" "Market" ⟨2025, 1, 2, 3, 1⟩
               then some ⟨"12h", "English", "Market", "cached", 5, ⟨2025, 1, 2, 3, 1⟩⟩
               else none),
           false⟩ ∧
    (Finviz.SummaryResponse.ready
        ⟨"12h", "English", "Market", "cached", 5, ⟨2025, 1, 2, 3, 1⟩⟩ true).status = "ready" ∧
    (Finviz.SummaryResponse.ready
        ⟨"12h", "English", "Market", "cached", 5, ⟨2025, 1, 2, 3, 1⟩⟩ true).status ≠
      "generating" := by
  refine ⟨by decide, ?_, rfl, by decide⟩
  unfold Finviz.finvizSummary Finviz.getCachedSummary
  rw [if_neg (by decide)]
  dsimp only
  have hg : (("12h:English:Market" : String) == "12h:English:Market") = true := by decide
  have hk : Finviz.genKey "12h" "English" "Market" = "12h:English:Market" := by decide
  simp [hk, hg]

/-- C1 (amended): for every valid-period request, a new generation thread is
started only when the guard key is absent from `_generating`; when the key is
already marked no thread is started and the guard map is unchanged, and the
response has status "generating" unless regenerate is unset and a cached
summary exists for the current bucket, in which case it has status "ready". -/
theorem C1_generation_guard (period : String) (regenerate : Nat)
    (topic language : String) (now : Finviz.UTCTime) (st : Finviz.ServerState)
    (o : Finviz.SummaryOutcome)
    (ho : Finviz.finvizSummary period regenerate topic language now st = .ok o) :
    (o.threadStarted = true → st.generating (Finviz.genKey period language topic) = false) ∧
    (st.generating (Finviz.genKey period language topic) = true →
      o.threadStarted = false ∧ o.state.generating = st.generating ∧
      (regenerate ≠ 0 → o.response.status = "generating") ∧
      (regenerate = 0 → Finviz.getCachedSummary period language topic now st = none →
        o.response.status = "generating") ∧
      (∀ c, regenerate = 0 → Finviz.getCachedSummary period language topic now st = some c →
        o.response.status = "ready")) := by
  unfold Finviz.finvizSummary at ho
  split at ho
  · exact Except.noConfusion ho
  · dsimp only at ho
    by_cases hr : regenerate = 0
    · rw [if_neg (by simp [hr])] at ho
      unfold Finviz.getCachedSummary at ho ⊢
      cases hgc : st.cache (Finviz.cacheKey period language topic now) with
      | some c =>
        rw [hgc] at ho
        dsimp only at ho
        rw [if_pos hr] at ho
        cases ho
        refine ⟨fun h => Bool.noConfusion h, fun hgen => ⟨rfl, rfl, ?_, ?_, ?_⟩⟩
        · intro h; exact absurd hr h
        · intro _ hnone; exact Option.noConfusion hnone
        · intro c2 _ _; rfl
      | none =>
        rw [hgc] at ho
        by_cases hgen : st.generating (Finviz.genKey period language topic) = true
        · rw [if_pos hgen] at ho
          cases ho
          exact ⟨fun h => Bool.noConfusion h, fun _ => ⟨rfl, rfl, fun _ => rfl,
            fun _ _ => rfl, fun c2 _ hc2 => Option.noConfusion hc2⟩⟩
        · rw [if_neg hgen] at ho
          cases ho
          refine ⟨fun _ => by simpa using hgen, fun hg2 => absurd hg2 hgen⟩
    · rw [if_pos (by simp [hr])] at ho
      unfold Finviz.getCachedSummary at ho
      dsimp only at ho
      rw [if_pos rfl] at ho
      by_cases hgen : st.generating (Finviz.genKey period language topic) = true
      · rw [if_pos hgen] at ho
        cases ho
        exact ⟨fun h => Bool.noConfusion h, fun _ => ⟨rfl, rfl, fun _ => rfl,
          fun hz _ => absurd hz hr, fun c2 hz _ => absurd hz hr⟩⟩
      · rw [if_neg hgen] at ho
        cases ho
        refine ⟨fun _ => by simpa using hgen, fun hg2 => absurd hg2 hgen⟩

/-- Witness for C1 (amended) at a concrete request whose guard key is marked and
whose cache is empty. -/
theorem C1_generation_guard_witness :
    (Finviz.ServerState.mk (fun k => k == "12h:English:Market") (fun _ => none)).generating
      (Finviz.genKey "12h" "English" "Market") = true ∧
    ∃ o, Finviz.finvizSummary "12h" 0 "Market" "English" ⟨2025, 1, 2, 3, 1⟩
        (Finviz.ServerState.mk (fun k => k == "12h:English:Market") (fun _ => none)) = .ok o ∧
      o.threadStarted = false ∧ o.response.status = "generating" := by
  have hmem : ("12h" : String) ∈ (["12h", "24h", "weekly"] : List String) := by decide
  obtain ⟨o, ho⟩ := Finviz.finvizSummary_isOk "12h" 0 "Market" "English" ⟨2025, 1, 2, 3, 1⟩
    (Finviz.ServerState.mk (fun k => k == "12h:English:Market") (fun _ => none)) hmem
  have hgen : (Finviz.ServerState.mk (fun k => k == "12h:English:Market")
      (fun _ => none)).generating (Finviz.genKey "12h" "English" "Market") = true := by decide
  have h := C1_generation_guard "12h" 0 "Market" "English" ⟨2025, 1, 2, 3, 1⟩
    (Finviz.ServerState.mk (fun k => k == "12h:English:Market") (fun _ => none)) o ho
  exact ⟨hgen, o, ho, (h.2 hgen).1, (h.2 hgen).2.2.2.1 rfl rfl⟩

theorem ArxivKB.find?_append_none {α : Type} (p : α → Bool) (l1 l2 : List α)
    (h : l1.find? p = none) : (l1 ++ l2).find? p = l2.find? p := by
  rw [List.find?_append, h]
  rfl

/-- C4: translation results are cached: for a paper present in `papers` with a
non-empty abstract and a configured non-empty target language, the translate
endpoint returns a stored translation without calling the LLM when a row for
(paper_id, language) exists; otherwise a successful LLM translation is inserted
into `translations`, and a subsequent identical request returns that stored
value without calling the LLM. -/
theorem C4_translation_cached (db : ArxivKB.KBState) (aid lang : String)
    (row : ArxivKB.PaperRow)
    (hrow : db.papers.find? (fun r => r.arxiv_id == aid) = some row)
    (habs : row.abstract ≠ "") (hlang : lang ≠ "") :
    (∀ tr, db.translations.find?
        (fun t => t.paper_id == row.id && t.language == lang) = some tr →
      ∀ llm, ArxivKB.sciencePaperTranslate db aid lang llm =
        ⟨⟨some tr.abstract, some lang⟩, db, false⟩) ∧
    (∀ t, db.translations.find?
        (fun t2 => t2.paper_id == row.id && t2.language == lang) = none →
      ArxivKB.sciencePaperTranslate db aid lang (some t) =
        ⟨⟨some t, some lang⟩,
         ⟨db.papers, db.translations ++ [⟨row.id, lang, t⟩]⟩, true⟩ ∧
      ∀ llm2, ArxivKB.sciencePaperTranslate
          (ArxivKB.sciencePaperTranslate db aid lang (some t)).db aid lang llm2 =
        ⟨⟨some t, some lang⟩,
         (ArxivKB.sciencePaperTranslate db aid lang (some t)).db, false⟩) := by
  constructor
  · intro tr htr llm
    unfold ArxivKB.sciencePaperTranslate
    rw [hrow]
    dsimp only
    rw [if_neg habs, if_neg hlang, htr]
  · intro t hnone
    have h1 : ArxivKB.sciencePaperTranslate db aid lang (some t) =
        ⟨⟨some t, some lang⟩, ⟨db.papers, db.translations ++ [⟨row.id, lang, t⟩]⟩, true⟩ := by
      unfold ArxivKB.sciencePaperTranslate
      rw [hrow]
      dsimp only
      rw [if_neg habs, if_neg hlang, hnone]
    refine ⟨h1, fun llm2 => ?_⟩
    rw [h1]
    unfold ArxivKB.sciencePaperTranslate
    dsimp only
    rw [hrow]
    dsimp only
    rw [if_neg habs, if_neg hlang]
    rw [ArxivKB.find?_append_none _ _ _ hnone]
    simp

/-- Witness for C4 at a concrete one-paper database with an empty translations
table. -/
theorem C4_translation_cached_witness :
    ArxivKB.sciencePaperTranslate ⟨[⟨1, "2401.0001", "T", "A", "2024"⟩], []⟩
        "2401.0001" "German" (some "UA") =
      ⟨⟨some "UA", some "German"⟩,
       ⟨[⟨1, "2401.0001", "T", "A", "2024"⟩], [⟨1, "German", "UA"⟩]⟩, true⟩ ∧
    ArxivKB.sciencePaperTranslate
        (ArxivKB.sciencePaperTranslate ⟨[⟨1, "2401.0001", "T", "A", "2024"⟩], []⟩
          "2401.0001" "German" (some "UA")).db "2401.0001" "German" none =
      ⟨⟨some "UA", some "German"⟩,
       (ArxivKB.sciencePaperTranslate ⟨[⟨1, "2401.0001", "T", "A", "2024"⟩], []⟩
         "2401.0001" "German" (some "UA")).db, false⟩ := by
  have h := (C4_translation_cached ⟨[⟨1, "2401.0001", "T", "A", "2024"⟩], []⟩
    "2401.0001" "German" ⟨1, "2401.0001", "T", "A", "2024"⟩ (by decide) (by decide)
    (by decide)).2 "UA" (by decide)
  exact ⟨h.1, h.2 none⟩

/-- C9: missing-paper behaviour differs between the two paper endpoints: an
absent arxiv_id makes `GET /paper/{id}` raise HTTP 404 "Paper not found" while
the translate endpoint returns translated null without calling the LLM; the
translate endpoint likewise returns translated null without calling the LLM
when the abstract is empty or no target language is configured. -/
theorem C9_missing_paper (db : ArxivKB.KBState) (dataDir : String)
    (fs : String → Bool) (aid lang : String) (llm : Option String) :
    (db.papers.find? (fun r => r.arxiv_id == aid) = none →
      ArxivKB.sciencePaper db dataDir fs aid lang = .error (404, "Paper not found") ∧
      ArxivKB.sciencePaperTranslate db aid lang llm = ⟨⟨none, none⟩, db, false⟩) ∧
    (∀ row, db.papers.find? (fun r => r.arxiv_id == aid) = some row →
      row.abstract = "" →
      ArxivKB.sciencePaperTranslate db aid lang llm = ⟨⟨none, none⟩, db, false⟩) ∧
    (∀ row, db.papers.find? (fun r => r.arxiv_id == aid) = some row →
      lang = "" →
      ArxivKB.sciencePaperTranslate db aid lang llm = ⟨⟨none, none⟩, db, false⟩) := by
  refine ⟨fun hnone => ⟨?_, ?_⟩, fun row hrow habs => ?_, fun row hrow hlang => ?_⟩
  · unfold ArxivKB.sciencePaper
    rw [hnone]
  · unfold ArxivKB.sciencePaperTranslate
    rw [hnone]
  · unfold ArxivKB.sciencePaperTranslate
    rw [hrow]
    dsimp only
    rw [if_pos habs]
  · unfold ArxivKB.sciencePaperTranslate
    rw [hrow]
    dsimp only
    by_cases habs : row.abstract = ""
    · rw [if_pos habs]
    · rw [if_neg habs, if_pos hlang]

/-- Witness for C9 at a concrete database without the requested paper and with
a present paper with empty abstract. -/
theorem C9_missing_paper_witness :
    ArxivKB.sciencePaper ⟨[⟨1, "2401.0001", "T", "", "2024"⟩], []⟩ "/d" (fun _ => false)
        "2401.9999" "German" = .error (404, "Paper not found") ∧
    ArxivKB.sciencePaperTranslate ⟨[⟨1, "2401.0001", "T", "", "2024"⟩], []⟩
        "2401.9999" "German" (some "x") = ⟨⟨none, none⟩, ⟨[⟨1, "2401.0001", "T", "", "2024"⟩], []⟩, false⟩ ∧
    ArxivKB.sciencePaperTranslate ⟨[⟨1, "2401.0001", "T", "", "2024"⟩], []⟩
        "2401.0001" "German" (some "x") = ⟨⟨none, none⟩, ⟨[⟨1, "2401.0001", "T", "", "2024"⟩], []⟩, false⟩ := by
  have h := C9_missing_paper ⟨[⟨1, "2401.0001", "T", "", "2024"⟩], []⟩ "/d" (fun _ => false)
    "2401.9999" "German" (some "x")
  have h2 := C9_missing_paper ⟨[⟨1, "2401.0001", "T", "", "2024"⟩], []⟩ "/d" (fun _ => false)
    "2401.0001" "German" (some "x")
  exact ⟨(h.1 (by decide)).1, (h.1 (by decide)).2,
    h2.2.1 ⟨1, "2401.0001", "T", "", "2024"⟩ (by decide) rfl⟩

theorem Finviz.pathJoin_eq (a b : String) (ha : a ≠ "")
    (hlast : a.data.getLast? ≠ some '/') (hhead : b.data.head? ≠ some '/') :
    pathJoin a b = a ++ "/" ++ b := by
  unfold pathJoin
  rw [if_neg hhead, if_neg (not_or.mpr ⟨ha, hlast⟩)]

theorem ArxivKB.pdfPath_eq (dataDir aid : String) (hd1 : dataDir ≠ "")
    (hd2 : dataDir.data.getLast? ≠ some '/') (haid : aid.data.head? ≠ some '/') :
    pdfPath dataDir aid = dataDir ++ "/pdfs/" ++ aid ++ ".pdf" := by
  have h1 : Finviz.pathJoin dataDir "pdfs" = dataDir ++ "/" ++ "pdfs" :=
    Finviz.pathJoin_eq dataDir "pdfs" hd1 hd2 (by decide)
  have h2 : (dataDir ++ "/" ++ "pdfs").data.getLast? = some 's' := by
    show ((dataDir ++ "/").data ++ "pdfs".data).getLast? = some 's'
    rw [List.getLast?_append]
    rfl
  have h3 : (dataDir ++ "/" ++ "pdfs") ≠ "" := by
    intro hc
    have : ((dataDir ++ "/").data ++ "pdfs".data) = [] := congrArg String.data hc
    simp at this
  have h4 : (aid ++ ".pdf").data.head? ≠ some '/' := by
    show (aid.data ++ ".pdf".data).head? ≠ some '/'
    rw [List.head?_append]
    cases hh : aid.data.head? with
    | none => simp [Option.or]
    | some c =>
      rw [hh] at haid
      simpa [Option.or] using haid
  unfold pdfPath
  rw [h1, Finviz.pathJoin_eq _ _ h3 (by rw [h2]; decide) h4]
  apply String.ext
  show (((dataDir.data ++ "/".data) ++ "pdfs".data) ++ "/".data) ++ (aid.data ++ ".pdf".data) =
    ((dataDir.data ++ "/pdfs/".data) ++ aid.data) ++ ".pdf".data
  simp [List.append_assoc]

/-- C6: static file serving: `GET /pdf/{arxiv_id}` serves
`{data_dir}/pdfs/{arxiv_id}.pdf` with media type application/pdf when the file
exists and raises HTTP 404 "PDF not found" otherwise; `GET /article` returns
the cached article text as content when the `article_path` file exists and
content null when the path is unset or the file is missing. -/
theorem C6_static_files (dataDir : String) (fs : String → Bool) (aid : String)
    (table : List Finviz.ArticleRow) (articlesDir : String)
    (readFile : String → String) (url : String)
    (hd1 : dataDir ≠ "") (hd2 : dataDir.data.getLast? ≠ some '/')
    (haid : aid.data.head? ≠ some '/') :
    ArxivKB.pdfPath dataDir aid = dataDir ++ "/pdfs/" ++ aid ++ ".pdf" ∧
    (fs (ArxivKB.pdfPath dataDir aid) = true →
      ArxivKB.sciencePdf dataDir fs aid =
        .ok ⟨ArxivKB.pdfPath dataDir aid, "application/pdf", aid ++ ".pdf"⟩) ∧
    (fs (ArxivKB.pdfPath dataDir aid) = false →
      ArxivKB.sciencePdf dataDir fs aid = .error (404, "PDF not found")) ∧
    (∀ row resp, table.find? (fun r => r.url == url) = some row →
      Finviz.finvizArticle table articlesDir fs readFile url = .ok resp →
      (∀ p, row.article_path = some p → p ≠ "" →
        fs (Finviz.pathJoin articlesDir p) = true →
        resp.content = some (readFile (Finviz.pathJoin articlesDir p))) ∧
      (row.article_path = none → resp.content = none) ∧
      (row.article_path = some "" → resp.content = none) ∧
      (∀ p, row.article_path = some p → fs (Finviz.pathJoin articlesDir p) = false →
        resp.content = none)) := by
  refine ⟨ArxivKB.pdfPath_eq dataDir aid hd1 hd2 haid, ?_, ?_, ?_⟩
  · intro hfs
    unfold ArxivKB.sciencePdf
    dsimp only
    rw [if_neg (by simp [hfs])]
  · intro hfs
    unfold ArxivKB.sciencePdf
    dsimp only
    rw [if_pos hfs]
  · intro row resp hfind ho
    unfold Finviz.finvizArticle at ho
    rw [hfind] at ho
    dsimp only at ho
    injection ho with h2
    subst h2
    refine ⟨?_, ?_, ?_, ?_⟩
    · intro p hp hpne hfs
      dsimp only
      rw [hp]
      dsimp only
      rw [if_neg hpne, if_pos hfs]
    · intro hp
      dsimp only
      rw [hp]
    · intro hp
      dsimp only
      rw [hp]
      rfl
    · intro p hp hfs
      dsimp only
      rw [hp]
      dsimp only
      by_cases hpe : p = ""
      · rw [if_pos hpe]
      · rw [if_neg hpe, if_neg (by simp [hfs])]

/-- Witness for C6 at a concrete data directory, a present and an absent PDF,
and a one-row articles table with a readable content file. -/
theorem C6_static_files_witness :
    ArxivKB.pdfPath "/d" "2401.0001" = "/d" ++ "/pdfs/" ++ "2401.0001" ++ ".pdf" ∧
    ArxivKB.sciencePdf "/d" (fun _ => true) "2401.0001" =
      .ok ⟨ArxivKB.pdfPath "/d" "2401.0001", "application/pdf", "2401.0001" ++ ".pdf"⟩ ∧
    ArxivKB.sciencePdf "/d" (fun _ => false) "2401.0001" = .error (404, "PDF not found") ∧
    (Finviz.ArticleResponse.mk "t" "u" "2025" (some "text")).content = some "text" := by
  have h1 := C6_static_files "/d" (fun _ => true) "2401.0001"
    [⟨"t", "u", "2025", some "a.txt", none, "done"⟩] "/arts" (fun _ => "text") "u"
    (by decide) (by decide) (by decide)
  have h2 := C6_static_files "/d" (fun _ => false) "2401.0001"
    [⟨"t", "u", "2025", some "a.txt", none, "done"⟩] "/arts" (fun _ => "text") "u"
    (by decide) (by decide) (by decide)
  exact ⟨h1.1, h1.2.1 rfl, h2.2.2.1 rfl, rfl⟩

/-- C5: headline listing is filtered and paginated: for hours in [1,720] and
limit in [1,500], `GET /headlines` returns at most limit headlines, every
returned headline has `publish_at` at least the cutoff (now minus hours), the
headlines are ordered by `publish_at` descending, and the count field equals
the number of returned headlines. -/
theorem C5_headlines (table : List Finviz.ArticleRow) (cutoff : String)
    (hours limit : Nat) (hh1 : 1 ≤ hours) (hh2 : hours ≤ 720)
    (hl1 : 1 ≤ limit) (hl2 : limit ≤ 500) :
    (Finviz.finvizHeadlines table cutoff limit).headlines.length ≤ limit ∧
    (∀ h ∈ (Finviz.finvizHeadlines table cutoff limit).headlines, cutoff ≤ h.date) ∧
    List.Pairwise (fun a b : Finviz.Headline => b.date ≤ a.date)
      (Finviz.finvizHeadlines table cutoff limit).headlines ∧
    (Finviz.finvizHeadlines table cutoff limit).count =
      (Finviz.finvizHeadlines table cutoff limit).headlines.length := by
  have heq : (Finviz.finvizHeadlines table cutoff limit).headlines =
      (((table.filter (fun r => decide (cutoff ≤ r.publish_at))).mergeSort
          (fun a b => decide (b.publish_at ≤ a.publish_at))).take limit).map
        (fun r => ⟨r.title, r.url, r.publish_at, r.article_path.isSome⟩) := rfl
  have hcnt : (Finviz.finvizHeadlines table cutoff limit).count =
      (((table.filter (fun r => decide (cutoff ≤ r.publish_at))).mergeSort
          (fun a b => decide (b.publish_at ≤ a.publish_at))).take limit).length := rfl
  refine ⟨?_, ?_, ?_, ?_⟩
  · rw [heq, List.length_map, List.length_take]
    exact inf_le_left
  · intro h hm
    rw [heq] at hm
    obtain ⟨r, hr, rfl⟩ := List.mem_map.mp hm
    have hr2 := List.mem_of_mem_take hr
    have hr3 := (List.mergeSort_perm _ _).mem_iff.mp hr2
    exact of_decide_eq_true (List.mem_filter.mp hr3).2
  · rw [heq]
    refine List.pairwise_map.mpr ?_
    refine List.Pairwise.sublist (List.take_sublist _ _) ?_
    have hs := @List.sorted_mergeSort Finviz.ArticleRow
      (fun a b : Finviz.ArticleRow => decide (b.publish_at ≤ a.publish_at))
      (fun a b c hab hbc => by
        simp only [decide_eq_true_eq] at *
        exact le_trans hbc hab)
      (fun a b => by
        rcases le_total b.publish_at a.publish_at with h | h <;> simp [h])
      (table.filter (fun r => decide (cutoff ≤ r.publish_at)))
    exact hs.imp (fun hab => of_decide_eq_true hab)
  · rw [heq, hcnt, List.length_map]

/-- Witness for C5 at a concrete three-row table. -/
theorem C5_headlines_witness :
    (Finviz.finvizHeadlines
        [⟨"a", "u1", "2025-01-02T00:00:00", some "p", none, "done"⟩,
         ⟨"b", "u2", "2025-01-03T00:00:00", none, none, "done"⟩,
         ⟨"c", "u3", "2024-12-01T00:00:00", none, none, "done"⟩]
        "2025-01-01T00:00:00" 2).headlines.length ≤ 2 ∧
    (∀ h ∈ (Finviz.finvizHeadlines
        [⟨"a", "u1", "2025-01-02T00:00:00", some "p", none, "done"⟩,
         ⟨"b", "u2", "2025-01-03T00:00:00", none, none, "done"⟩,
         ⟨"c", "u3", "2024-12-01T00:00:00", none, none, "done"⟩]
        "2025-01-01T00:00:00" 2).headlines, "2025-01-01T00:00:00" ≤ h.date) ∧
    List.Pairwise (fun a b : Finviz.Headline => b.date ≤ a.date)
      (Finviz.finvizHeadlines
        [⟨"a", "u1", "2025-01-02T00:00:00", some "p", none, "done"⟩,
         ⟨"b", "u2", "2025-01-03T00:00:00", none, none, "done"⟩,
         ⟨"c", "u3", "2024-12-01T00:00:00", none, none, "done"⟩]
        "2025-01-01T00:00:00" 2).headlines ∧
    (Finviz.finvizHeadlines
        [⟨"a", "u1", "2025-01-02T00:00:00", some "p", none, "done"⟩,
         ⟨"b", "u2", "2025-01-03T00:00:00", none, none, "done"⟩,
         ⟨"c", "u3", "2024-12-01T00:00:00", none, none, "done"⟩]
        "2025-01-01T00:00:00" 2).count =
      (Finviz.finvizHeadlines
        [⟨"a", "u1", "2025-01-02T00:00:00", some "p", none, "done"⟩,
         ⟨"b", "u2", "2025-01-03T00:00:00", none, none, "done"⟩,
         ⟨"c", "u3", "2024-12-01T00:00:00", none, none, "done"⟩]
        "2025-01-01T00:00:00" 2).headlines.length :=
  C5_headlines
    [⟨"a", "u1", "2025-01-02T00:00:00", some "p", none, "done"⟩,
     ⟨"b", "u2", "2025-01-03T00:00:00", none, none, "done"⟩,
     ⟨"c", "u3", "2024-12-01T00:00:00", none, none, "done"⟩]
    "2025-01-01T00:00:00" 24 2 (by decide) (by decide) (by decide) (by decide)

theorem Finviz.addTickers_loop (ts : List TickerIn) (d : String → Bool)
    (acc : List String) :
    (ts.foldl addStep (d, acc)).2 = acc ++ ts.filterMap acceptSym ∧
    ∀ k, (ts.foldl addStep (d, acc)).1 k =
      if k ∈ ts.filterMap acceptSym then true else d k := by
  induction ts generalizing d acc with
  | nil => simp
  | cons t ts ih =>
    rw [List.foldl_cons, List.filterMap_cons]
    by_cases hs : normSym t.symbol = "" ∨ normSym t.symbol = "MARKET"
    · have h1 : acceptSym t = none := by unfold acceptSym; rw [if_pos hs]
      have h2 : addStep (d, acc) t = (d, acc) := by unfold addStep; rw [if_pos hs]
      rw [h1, h2]
      exact ih d acc
    · have h1 : acceptSym t = some (normSym t.symbol) := by unfold acceptSym; rw [if_neg hs]
      have h2 : addStep (d, acc) t =
          ((fun k => if k = normSym t.symbol then true else d k),
           acc ++ [normSym t.symbol]) := by
        unfold addStep; rw [if_neg hs]
      rw [h1, h2]
      obtain ⟨ha, hb⟩ := ih (fun k => if k = normSym t.symbol then true else d k)
        (acc ++ [normSym t.symbol])
      constructor
      · rw [ha, List.append_assoc]
        rfl
      · intro k
        rw [hb k]
        by_cases hk : k ∈ ts.filterMap acceptSym
        · rw [if_pos hk, if_pos (by simp [hk])]
        · rw [if_neg hk]
          by_cases hk2 : k = normSym t.symbol
          · rw [if_pos hk2, if_pos (by simp [hk2])]
          · rw [if_neg hk2, if_neg (by simp [hk, hk2, Ne.symm])]

theorem Finviz.removeTickers_loop (syms : List String) (d : String → Bool) :
    ∀ k, (syms.foldl (fun d2 sym => fun k => if k = sym then false else d2 k) d) k =
      if k ∈ syms then false else d k := by
  induction syms generalizing d with
  | nil => intro k; simp
  | cons s ss ih =>
    intro k
    rw [List.foldl_cons, ih]
    by_cases hk : k ∈ ss
    · rw [if_pos hk, if_pos (by simp [hk])]
    · rw [if_neg hk]
      by_cases hk2 : k = s
      · rw [if_pos hk2, if_pos (by simp [hk2])]
      · rw [if_neg hk2, if_neg (by simp [hk, hk2, Ne.symm])]

theorem Finviz.acceptSym_some (t : TickerIn) (s : String)
    (h : acceptSym t = some s) :
    s = normSym t.symbol ∧ s ≠ "" ∧ s ≠ "MARKET" := by
  unfold acceptSym at h
  by_cases hc : normSym t.symbol = "" ∨ normSym t.symbol = "MARKET"
  · rw [if_pos hc] at h
    exact Option.noConfusion h
  · rw [if_neg hc] at h
    injection h with h
    subst h
    exact ⟨rfl, (not_or.mp hc).1, (not_or.mp hc).2⟩

/-- C10: ticker symbol normalisation: every symbol inserted by `POST /tickers`
is stripped and upper-cased, empty symbols and the literal MARKET are skipped
(never inserted and never listed in added), and `DELETE /tickers` strips and
upper-cases every requested symbol before deleting, returning ok true even for
absent symbols. -/
theorem C10_ticker_normalisation (tickers : List Finviz.TickerIn)
    (db : String → Bool) (symbols : String) (hne : tickers ≠ []) :
    (∀ db2 resp, Finviz.addTickers tickers db = .ok (db2, resp) →
      resp.ok = true ∧
      resp.added = tickers.filterMap Finviz.acceptSym ∧
      "" ∉ resp.added ∧ "MARKET" ∉ resp.added ∧
      (∀ s ∈ resp.added, ∃ t ∈ tickers, s = Finviz.normSym t.symbol) ∧
      (∀ k, db2 k = if k ∈ resp.added then true else db k)) ∧
    (Finviz.removeTickers symbols db).2.ok = true ∧
    (Finviz.removeTickers symbols db).2.removed =
      ((Finviz.pySplitComma symbols).filter
        (fun s => Finviz.pyStrip s ≠ "")).map Finviz.normSym ∧
    (∀ k, (Finviz.removeTickers symbols db).1 k =
      if k ∈ (Finviz.removeTickers symbols db).2.removed then false else db k) := by
  have hmem : ∀ s ∈ tickers.filterMap Finviz.acceptSym,
      s ≠ "" ∧ s ≠ "MARKET" ∧ ∃ t ∈ tickers, s = Finviz.normSym t.symbol := by
    intro s hs
    obtain ⟨t, ht, hat⟩ := List.mem_filterMap.mp hs
    obtain ⟨he, h1, h2⟩ := Finviz.acceptSym_some t s hat
    exact ⟨h1, h2, t, ht, he⟩
  refine ⟨?_, rfl, rfl, fun k => Finviz.removeTickers_loop _ db k⟩
  intro db2 resp h
  unfold Finviz.addTickers at h
  rw [if_neg (by simp only [List.isEmpty_iff]; exact hne)] at h
  dsimp only at h
  injection h with h2
  rw [Prod.ext_iff] at h2
  obtain ⟨hdb, hresp⟩ := h2
  subst hdb
  subst hresp
  obtain ⟨ha, hb⟩ := Finviz.addTickers_loop tickers db []
  rw [List.nil_append] at ha
  refine ⟨rfl, ?_, ?_, ?_, ?_, ?_⟩
  · exact ha
  · show "" ∉ (tickers.foldl Finviz.addStep (db, [])).2
    rw [ha]
    intro hc
    exact (hmem _ hc).1 rfl
  · show "MARKET" ∉ (tickers.foldl Finviz.addStep (db, [])).2
    rw [ha]
    intro hc
    exact (hmem _ hc).2.1 rfl
  · show ∀ s ∈ (tickers.foldl Finviz.addStep (db, [])).2, _
    rw [ha]
    intro s hs
    exact (hmem s hs).2.2
  · intro k
    show (tickers.foldl Finviz.addStep (db, [])).1 k = _
    rw [hb k]
    show _ = if k ∈ (tickers.foldl Finviz.addStep (db, [])).2 then true else db k
    rw [ha]

/-- Witness for C10 at a concrete batch with a padded symbol, a market symbol
and a blank symbol, and a concrete delete query. -/
theorem C10_ticker_normalisation_witness :
    ∃ db2 resp, Finviz.addTickers
        [⟨" nvda ", none⟩, ⟨"market", none⟩, ⟨"  ", none⟩] (fun _ => false) =
      .ok (db2, resp) ∧
      resp.ok = true ∧ resp.added = ["NVDA"] ∧ "MARKET" ∉ resp.added ∧
      db2 "NVDA" = true ∧ db2 "MARKET" = false ∧
      (Finviz.removeTickers "tsla, ,AAPL" (fun _ => false)).2.ok = true ∧
      (Finviz.removeTickers "tsla, ,AAPL" (fun _ => false)).2.removed = ["TSLA", "AAPL"] := by
  have h := C10_ticker_normalisation
    [⟨" nvda ", none⟩, ⟨"market", none⟩, ⟨"  ", none⟩] (fun _ => false)
    "tsla, ,AAPL" (by decide)
  have hok : Finviz.addTickers [⟨" nvda ", none⟩, ⟨"market", none⟩, ⟨"  ", none⟩]
      (fun _ => false) = .ok
      (([(⟨" nvda ", none⟩ : Finviz.TickerIn), ⟨"market", none⟩, ⟨"  ", none⟩].foldl
          Finviz.addStep ((fun _ => false), [])).1,
       ⟨true, ([(⟨" nvda ", none⟩ : Finviz.TickerIn), ⟨"market", none⟩, ⟨"  ", none⟩].foldl
          Finviz.addStep ((fun _ => false), [])).2⟩) := by
    unfold Finviz.addTickers
    rw [if_neg (by decide)]
  obtain ⟨hok2, hadded, hemp, hmk, hmem2, hdb⟩ := h.1 _ _ hok
  have haccept : [(⟨" nvda ", none⟩ : Finviz.TickerIn), ⟨"market", none⟩,
      ⟨"  ", none⟩].filterMap Finviz.acceptSym = ["NVDA"] := by decide
  refine ⟨_, _, hok, hok2, ?_, ?_, ?_, ?_, h.2.1, ?_⟩
  · rw [hadded, haccept]
  · rw [hadded] at hmk
    exact hmk
  · rw [hdb "NVDA", hadded, haccept]
    decide
  · rw [hdb "MARKET", hadded, haccept]
    decide
  · rw [h.2.2.1]
    decide
